import Mathlib

/-!
Verification of the Mini terminal text editor (mini.py).

The editor state is embedded shallowly: the buffer is a list of lines
(each a list of characters), the cursor and viewport offsets are naturals,
and the status bar is a message string plus a dirty flag.  Effectful
boundaries (the file system, the prompt reader) are represented by explicit
outcome parameters: loading takes a `LoadRes`, saving takes an
`Except String String` (error message or fresh mtime string), and the
prompt-driven operations (find, goto-line) take the entered text.
-/

/-- Transient status: message and dirty flag (class `Status` in mini.py). -/
structure Status where
  msg : String
  dirty : Bool
deriving DecidableEq

/-- Editor state: the fields of class `Editor` in mini.py.  Lines are lists of
characters; `cx`/`cy` are the cursor column/row; `rowoff`/`coloff` the
viewport offsets. -/
structure Editor where
  lines : List (List Char)
  cx : Nat
  cy : Nat
  rowoff : Nat
  coloff : Nat
  status : Status
  loadedMtime : String
deriving DecidableEq

/-- The line the cursor is on: `self.lines[self.cy]`. -/
def Editor.curLine (e : Editor) : List Char := e.lines.getD e.cy []

/-- Cursor validity: the row indexes an existing line and the column is at
most that line's length (it may equal it: cursor after the last character).
In this embedding rows and columns are naturals, so `0 ≤ row` and
`0 ≤ column` hold by construction. -/
def Editor.Wf (e : Editor) : Prop :=
  e.cy < e.lines.length ∧ e.cx ≤ e.curLine.length

instance (e : Editor) : Decidable e.Wf := by unfold Editor.Wf; infer_instance

/-- `Editor._clamp_cursor`: clamp the cursor into valid bounds. -/
def Editor.clamp_cursor (e : Editor) : Editor :=
  let cy := min e.cy (e.lines.length - 1)
  let cx := min e.cx (e.lines.getD cy []).length
  { e with cy := cy, cx := cx }

/-- `Editor.insert_char`: splice the inserted text into the current line at
the cursor column and advance the column by its length. -/
def Editor.insert_char (e : Editor) (ch : List Char) : Editor :=
  let s := e.curLine
  { e with lines := e.lines.set e.cy (s.take e.cx ++ ch ++ s.drop e.cx),
           cx := e.cx + ch.length,
           status := { e.status with dirty := true } }

/-- `Editor.insert_newline`: split the current line at the cursor; the right
part becomes a new line inserted after the current row. -/
def Editor.insert_newline (e : Editor) : Editor :=
  let s := e.curLine
  { e with lines := (e.lines.set e.cy (s.take e.cx)).insertIdx (e.cy + 1) (s.drop e.cx),
           cy := e.cy + 1,
           cx := 0,
           status := { e.status with dirty := true } }

/-- `Editor.backspace`: delete before the cursor, merging with the previous
line at column 0; no-op at the very start of the buffer. -/
def Editor.backspace (e : Editor) : Editor :=
  if 0 < e.cx then
    let s := e.curLine
    { e with lines := e.lines.set e.cy (s.take (e.cx - 1) ++ s.drop e.cx),
             cx := e.cx - 1,
             status := { e.status with dirty := true } }
  else if 0 < e.cy then
    let prev := e.lines.getD (e.cy - 1) []
    let cur := e.curLine
    { e with lines := (e.lines.set (e.cy - 1) (prev ++ cur)).eraseIdx e.cy,
             cx := prev.length,
             cy := e.cy - 1,
             status := { e.status with dirty := true } }
  else e

/-- `Editor.delete`: forward delete, merging with the next line at end of
line; no-op at the very end of the buffer. -/
def Editor.delete (e : Editor) : Editor :=
  let s := e.curLine
  if e.cx < s.length then
    { e with lines := e.lines.set e.cy (s.take e.cx ++ s.drop (e.cx + 1)),
             status := { e.status with dirty := true } }
  else if e.cy < e.lines.length - 1 then
    { e with lines := (e.lines.set e.cy (s ++ e.lines.getD (e.cy + 1) [])).eraseIdx (e.cy + 1),
             status := { e.status with dirty := true } }
  else e

/-- `Editor.left`: move the cursor one column left, wrapping to the end of
the previous line at column 0. -/
def Editor.left (e : Editor) : Editor :=
  if 0 < e.cx then { e with cx := e.cx - 1 }
  else if 0 < e.cy then
    { e with cy := e.cy - 1, cx := (e.lines.getD (e.cy - 1) []).length }
  else e

/-- `Editor.right`: move the cursor one column right, wrapping to the start
of the next line at end of line. -/
def Editor.right (e : Editor) : Editor :=
  if e.cx < e.curLine.length then { e with cx := e.cx + 1 }
  else if e.cy < e.lines.length - 1 then { e with cy := e.cy + 1, cx := 0 }
  else e

/-- `Editor.up`: move one row up, clamping the column. -/
def Editor.up (e : Editor) : Editor :=
  if 0 < e.cy then
    { e with cy := e.cy - 1, cx := min e.cx (e.lines.getD (e.cy - 1) []).length }
  else e

/-- `Editor.down`: move one row down, clamping the column. -/
def Editor.down (e : Editor) : Editor :=
  if e.cy < e.lines.length - 1 then
    { e with cy := e.cy + 1, cx := min e.cx (e.lines.getD (e.cy + 1) []).length }
  else e

/-- `Editor.home`: column 0. -/
def Editor.home (e : Editor) : Editor := { e with cx := 0 }

/-- `Editor.end`: column set to the current line's length (named `endKey`
because `end` is a Lean keyword). -/
def Editor.endKey (e : Editor) : Editor := { e with cx := e.curLine.length }

/-- `Editor.page_up(n)`: row moved up by `n`, clamped at 0; column clamped. -/
def Editor.page_up (e : Editor) (n : Nat) : Editor :=
  let cy := e.cy - n
  { e with cy := cy, cx := min e.cx (e.lines.getD cy []).length }

/-- `Editor.page_down(n)`: row moved down by `n`, clamped at the last row;
column clamped. -/
def Editor.page_down (e : Editor) (n : Nat) : Editor :=
  let cy := min (e.lines.length - 1) (e.cy + n)
  { e with cy := cy, cx := min e.cx (e.lines.getD cy []).length }

/-- `q` occurs in `s` at index `i` (case-sensitive substring semantics of
Python `str.find`). -/
def occursAt (s q : List Char) (i : Nat) : Bool :=
  (s.drop i).take q.length == q

/-- Candidate start indices `x0, x0+1, …, s.length` scanned by
`s.find(q, x0)`. -/
def colCandidates (s : List Char) (x0 : Nat) : List Nat :=
  List.range' x0 (s.length + 1 - x0)

/-- Python `s.find(q, x0)`: the least index `≥ x0` at which `q` occurs in
`s`, as an `Option` instead of the `-1` convention. -/
def strFind (s q : List Char) (x0 : Nat) : Option Nat :=
  (colCandidates s x0).find? (occursAt s q)

/-- The rows scanned by `Editor.find`, in order, paired with the column each
row's scan starts at: pass 0 covers `cy … last` (starting at `cx` on row
`cy`), pass 1 covers `0 … cy` from column 0. -/
def Editor.twoPassRows (e : Editor) : List (Nat × Nat) :=
  ((List.range' e.cy (e.lines.length - e.cy)).map
      (fun y => (y, if y = e.cy then e.cx else 0)))
    ++ ((List.range (e.cy + 1)).map (fun y => (y, 0)))

/-- The first match of the two-pass scan in `Editor.find`: row and match
column of the first row whose `str.find` call succeeds. -/
def Editor.findPos (e : Editor) (q : List Char) : Option (Nat × Nat) :=
  e.twoPassRows.findSome?
    (fun p => (strFind (e.lines.getD p.1 []) q p.2).map (fun i => (p.1, i)))

/-- `Editor.find`: empty (or cancelled) query is a no-op; otherwise move the
cursor to the first match and report "Found", or report "Not found". -/
def Editor.find (e : Editor) (q : List Char) : Editor :=
  if q.isEmpty then e
  else
    match e.findPos q with
    | some p => { e with cy := p.1, cx := p.2,
                         status := { e.status with msg := "Found" } }
    | none => { e with status := { e.status with msg := "Not found" } }

/-- Numeric value of an ASCII digit. -/
def digitVal (c : Char) : Nat := c.toNat - 48

/-- Digits of an integer literal after the first digit: Python `int` allows
single underscores between digits. -/
def parseDigitsAux : Nat → List Char → Option Nat
  | acc, [] => some acc
  | acc, '_' :: c :: rest =>
      if c.isDigit then parseDigitsAux (acc * 10 + digitVal c) rest else none
  | acc, c :: rest =>
      if c.isDigit then parseDigitsAux (acc * 10 + digitVal c) rest else none

/-- A nonempty digit sequence (with optional single underscores between
digits) and its value. -/
def parseDigits : List Char → Option Nat
  | [] => none
  | c :: rest => if c.isDigit then parseDigitsAux (digitVal c) rest else none

/-- Python `int(s)` for the ASCII-printable strings the prompt can produce
(characters 32–126): optional surrounding spaces, an optional sign, then a
nonempty digit sequence with single underscores allowed between digits. -/
def pyInt? (s : List Char) : Option Int :=
  let t := ((s.dropWhile (· == ' ')).reverse.dropWhile (· == ' ')).reverse
  match t with
  | '+' :: rest => (parseDigits rest).map (fun n => (n : Int))
  | '-' :: rest => (parseDigits rest).map (fun n => -(n : Int))
  | rest => (parseDigits rest).map (fun n => (n : Int))

/-- `Editor.goto_line`: empty/cancelled input returns silently; unparsable
input reports "Invalid number"; otherwise the row becomes
`max 1 v - 1` clamped to the last row, the column is clamped, and the
status reports `max 1 v`. -/
def Editor.goto_line (e : Editor) (s : List Char) : Editor :=
  if s.isEmpty then e
  else
    match pyInt? s with
    | none => { e with status := { e.status with msg := "Invalid number" } }
    | some v =>
        let n : Nat := (max 1 v).toNat
        let cy := min (e.lines.length - 1) (n - 1)
        { e with cy := cy,
                 cx := min e.cx (e.lines.getD cy []).length,
                 status := { e.status with msg := "Line " ++ toString n } }

/-- `Editor.save`: the write either succeeds (yielding the file's fresh
mtime string) or fails with an error message.  Success resets the dirty
flag; failure only changes the status message. -/
def Editor.save (e : Editor) (r : Except String String) : Editor :=
  match r with
  | Except.ok mtime =>
      { e with status := { msg := "Wrote file", dirty := false },
               loadedMtime := mtime }
  | Except.error err =>
      { e with status := { e.status with msg := "Write error: " ++ err } }

/-- Characters Python `str.splitlines` treats as line boundaries:
LF, VT, FF, CR, FS, GS, RS, NEL, LINE SEPARATOR, PARAGRAPH SEPARATOR. -/
def isLineBreak (c : Char) : Bool :=
  ([10, 11, 12, 13, 28, 29, 30, 133, 8232, 8233] : List Nat).contains c.toNat

/-- Prepend a character to the first line of a split result (creating the
line if there is none). -/
def consHead (c : Char) : List (List Char) → List (List Char)
  | [] => [[c]]
  | l :: ls => (c :: l) :: ls

/-- Python `str.splitlines`: split at any line-break character, treating
`"\r\n"` as a single boundary; a trailing boundary does not produce an
extra empty line, and the empty string yields no lines. -/
def splitlines : List Char → List (List Char)
  | [] => []
  | [c] => if isLineBreak c then [[]] else [[c]]
  | c :: c2 :: rest =>
      if c = '\r' then
        if c2 = '\n' then [] :: splitlines rest
        else [] :: splitlines (c2 :: rest)
      else if isLineBreak c then [] :: splitlines (c2 :: rest)
      else consHead c (splitlines (c2 :: rest))

/-- Python `"\n".join`. -/
def joinNL : List (List Char) → List Char
  | [] => []
  | [l] => l
  | l :: ls => l ++ '\n' :: joinNL ls

/-- The bytes `Editor.save` writes: lines joined by newline plus one
trailing newline. -/
def savedText (lines : List (List Char)) : List Char :=
  joinNL lines ++ ['\n']

/-- Outcome of reading the file in `Editor._load`: contents plus mtime
string, file-not-found, or another read error. -/
inductive LoadRes where
  | ok (content : List Char) (mtime : String)
  | notFound
  | err (msg : String)

/-- `Editor._load`: split the file into lines ( `[""]` for an empty or
unreadable/missing file), clear the dirty flag, set the status message. -/
def Editor.load (e : Editor) (r : LoadRes) : Editor :=
  match r with
  | LoadRes.ok content mtime =>
      let d := splitlines content
      { e with lines := if d.isEmpty then [[]] else d,
               status := { msg := "Opened", dirty := false },
               loadedMtime := mtime }
  | LoadRes.notFound =>
      { e with lines := [[]],
               status := { msg := "New file", dirty := false },
               loadedMtime := "N/A" }
  | LoadRes.err m =>
      { e with lines := [[]],
               status := { msg := "Error loading: " ++ m, dirty := false },
               loadedMtime := "N/A" }

/-- The state `Editor.__init__` builds before `_load` runs: empty line list,
cursor and offsets at 0. -/
def blankEditor (mt : String) : Editor :=
  { lines := [], cx := 0, cy := 0, rowoff := 0, coloff := 0,
    status := { msg := "", dirty := false }, loadedMtime := mt }

/-- `Editor.__init__`: a fresh editor is the blank state after `_load`.
`_load` is called only here, never during the event loop. -/
def Editor.init (mt : String) (r : LoadRes) : Editor :=
  (blankEditor mt).load r

/-- `Editor._scroll`: clamp the cursor, then move each offset just far
enough to keep the cursor inside the `text_h × w` viewport. -/
def Editor.scroll (e : Editor) (text_h w : Nat) : Editor :=
  let e := e.clamp_cursor
  let ro := if e.cy < e.rowoff then e.cy else e.rowoff
  let ro2 := if ro + text_h ≤ e.cy then e.cy - text_h + 1 else ro
  let co := if e.cx < e.coloff then e.cx else e.coloff
  let co2 := if co + w ≤ e.cx then e.cx - w + 1 else co
  { e with rowoff := ro2, coloff := co2 }

/-- One key-dispatch step of `Editor.run` (plus the `_scroll` performed by
`draw`).  `_load` is not listed: the source calls it only from
`__init__`. -/
inductive Op where
  | insert_char (ch : List Char)
  | insert_newline
  | backspace
  | delete
  | left
  | right
  | up
  | down
  | home
  | endKey
  | page_up (n : Nat)
  | page_down (n : Nat)
  | find (q : List Char)
  | goto_line (s : List Char)
  | save (r : Except String String)
  | scroll (h w : Nat)

/-- Apply one operation to the editor state. -/
def Editor.apply (e : Editor) : Op → Editor
  | Op.insert_char ch => e.insert_char ch
  | Op.insert_newline => e.insert_newline
  | Op.backspace => e.backspace
  | Op.delete => e.delete
  | Op.left => e.left
  | Op.right => e.right
  | Op.up => e.up
  | Op.down => e.down
  | Op.home => e.home
  | Op.endKey => e.endKey
  | Op.page_up n => e.page_up n
  | Op.page_down n => e.page_down n
  | Op.find q => e.find q
  | Op.goto_line s => e.goto_line s
  | Op.save r => e.save r
  | Op.scroll h w => e.scroll h w

/-- Apply a sequence of operations in order. -/
def Editor.applyAll (e : Editor) (ops : List Op) : Editor :=
  ops.foldl Editor.apply e

/-! ### Helper lemmas -/

/-- Reading back the slot just written by `List.set`. -/
lemma getD_set_self (l : List (List Char)) (i : Nat) (a : List Char)
    (hi : i < l.length) : (l.set i a).getD i [] = a := by
  simp [List.getD_eq_getElem?_getD, List.getElem?_set, hi]

/-- `List.set` leaves other slots unchanged. -/
lemma getD_set_ne (l : List (List Char)) (i j : Nat) (a : List Char)
    (hij : i ≠ j) : (l.set i a).getD j [] = l.getD j [] := by
  simp [List.getD_eq_getElem?_getD, List.getElem?_set, hij]

/-- A well-formed cursor is a fixed point of `_clamp_cursor`. -/
lemma clamp_cursor_of_wf (e : Editor) (h : e.Wf) : e.clamp_cursor = e := by
  obtain ⟨hy, hx⟩ := h
  have h1 : min e.cy (e.lines.length - 1) = e.cy := by omega
  have h2 : min e.cx (e.lines.getD e.cy []).length = e.cx :=
    Nat.min_eq_left hx
  simp only [Editor.clamp_cursor, h1, h2]

/-! ### C6: save failure preserves the in-memory state -/

/-- C6: if save fails with any I/O error, the buffer lines, the dirty flag,
the cursor, the viewport offsets and the recorded mtime are exactly as they
were before the save attempt; only the status message changes, to report the
write error. -/
theorem save_error_frame (e : Editor) (err : String) :
    (e.save (Except.error err)).lines = e.lines ∧
    (e.save (Except.error err)).status.dirty = e.status.dirty ∧
    (e.save (Except.error err)).cx = e.cx ∧
    (e.save (Except.error err)).cy = e.cy ∧
    (e.save (Except.error err)).rowoff = e.rowoff ∧
    (e.save (Except.error err)).coloff = e.coloff ∧
    (e.save (Except.error err)).loadedMtime = e.loadedMtime ∧
    (e.save (Except.error err)).status.msg = "Write error: " ++ err :=
  ⟨rfl, rfl, rfl, rfl, rfl, rfl, rfl, rfl⟩

/-! ### C8: backspace case analysis -/

/-- C8: with a valid cursor, backspace (1) at column > 0 removes the
character before the cursor and decrements the column, setting dirty;
(2) at column 0 of a row > 0 appends the current line to the previous one,
removes the current line, and moves the cursor to the previous row at that
line's old length, setting dirty; (3) at (0,0) changes nothing, the dirty
flag included. -/
theorem backspace_cases (e : Editor) (h : e.Wf) :
    (0 < e.cx → e.backspace =
      { e with lines := e.lines.set e.cy (e.curLine.eraseIdx (e.cx - 1)),
               cx := e.cx - 1,
               status := { e.status with dirty := true } }) ∧
    (e.cx = 0 → 0 < e.cy → e.backspace =
      { e with lines := (e.lines.set (e.cy - 1)
                  (e.lines.getD (e.cy - 1) [] ++ e.curLine)).eraseIdx e.cy,
               cy := e.cy - 1,
               cx := (e.lines.getD (e.cy - 1) []).length,
               status := { e.status with dirty := true } }) ∧
    (e.cx = 0 → e.cy = 0 → e.backspace = e) := by
  refine ⟨?_, ?_, ?_⟩
  · intro hx
    have h1 : e.cx - 1 + 1 = e.cx := Nat.sub_add_cancel hx
    simp [Editor.backspace, hx, List.eraseIdx_eq_take_drop_succ, h1]
  · intro hx hy
    simp [Editor.backspace, hx, hy]
  · intro hx hy
    simp [Editor.backspace, hx, hy]

/-- Witness for `backspace_cases` at buffer `["ab"]`, cursor (0,1). -/
theorem backspace_cases_witness :
    (⟨[['a', 'b']], 1, 0, 0, 0, ⟨"", false⟩, "mt"⟩ : Editor).backspace =
      { (⟨[['a', 'b']], 1, 0, 0, 0, ⟨"", false⟩, "mt"⟩ : Editor) with
        lines := [['b']], cx := 0, status := ⟨"", true⟩ } :=
  ((backspace_cases ⟨[['a', 'b']], 1, 0, 0, 0, ⟨"", false⟩, "mt"⟩
      (by decide)).1 (by decide)).trans (by decide)

/-! ### C10: left then right returns to the start -/

/-- C10: from any valid cursor other than (0,0), moving left and then right
returns the editor to exactly its original state, including the wrap cases
at line boundaries. -/
theorem left_then_right (e : Editor) (h : e.Wf)
    (h0 : ¬(e.cy = 0 ∧ e.cx = 0)) : e.left.right = e := by
  obtain ⟨hy, hx⟩ := h
  by_cases hcx : 0 < e.cx
  · have hlt : e.cx - 1 < e.curLine.length := by
      unfold Editor.curLine at hx ⊢; omega
    have h1 : e.cx - 1 + 1 = e.cx := Nat.sub_add_cancel hcx
    simp [Editor.left, hcx, Editor.right, Editor.curLine] at *
    simp [hlt, h1]
  · have hcy : 0 < e.cy := by omega
    have hx0 : e.cx = 0 := by omega
    have h2 : e.cy - 1 + 1 = e.cy := Nat.sub_add_cancel hcy
    have h3 : e.cy - 1 < e.lines.length - 1 := by omega
    simp [Editor.left, hcx, hcy, Editor.right, Editor.curLine]
    simp only [h3, if_true, h2]
    rw [← hx0]

/-- Witness for `left_then_right` at buffer `["ab", "c"]`, cursor (1,0):
left wraps to (0,2), right wraps back. -/
theorem left_then_right_witness :
    (⟨[['a', 'b'], ['c']], 0, 1, 0, 0, ⟨"", false⟩, "mt"⟩ : Editor).left.right =
      ⟨[['a', 'b'], ['c']], 0, 1, 0, 0, ⟨"", false⟩, "mt"⟩ :=
  left_then_right ⟨[['a', 'b'], ['c']], 0, 1, 0, 0, ⟨"", false⟩, "mt"⟩
    (by decide) (by decide)

/-! ### C7: viewport scrolling -/

/-- C7: with a valid cursor and positive viewport dimensions, `_scroll`
moves `rowoff` down to the cursor row when the cursor is above the viewport,
up to `row − H + 1` when the cursor is at or below its bottom edge, and
otherwise leaves it unchanged (symmetrically for `coloff` with width `W`);
afterwards the cursor lies inside the `[rowoff, rowoff+H) × [coloff,
coloff+W)` window.  Offsets are naturals, hence never negative. -/
theorem scroll_spec (e : Editor) (H W : Nat) (h : e.Wf)
    (hH : 1 ≤ H) (hW : 1 ≤ W) :
    (e.scroll H W).cy = e.cy ∧ (e.scroll H W).cx = e.cx ∧
    (e.scroll H W).rowoff =
      (if e.cy < e.rowoff then e.cy
       else if e.rowoff + H ≤ e.cy then e.cy - H + 1 else e.rowoff) ∧
    (e.scroll H W).coloff =
      (if e.cx < e.coloff then e.cx
       else if e.coloff + W ≤ e.cx then e.cx - W + 1 else e.coloff) ∧
    (e.scroll H W).rowoff ≤ e.cy ∧ e.cy < (e.scroll H W).rowoff + H ∧
    (e.scroll H W).coloff ≤ e.cx ∧ e.cx < (e.scroll H W).coloff + W := by
  unfold Editor.scroll
  rw [clamp_cursor_of_wf e h]
  refine ⟨rfl, rfl, ?_, ?_, ?_, ?_, ?_, ?_⟩ <;>
    simp only [] <;> split_ifs <;> (try rfl) <;> omega

/-- Witness for `scroll_spec`: height 10, cursor row 25, previous
`rowoff` 5 → new `rowoff` 16. -/
theorem scroll_spec_witness :
    (((⟨List.replicate 30 ['x'], 0, 25, 5, 0, ⟨"", false⟩, "mt"⟩ : Editor).scroll
        10 80).rowoff = 16) ∧
    (((⟨List.replicate 30 ['x'], 0, 25, 5, 0, ⟨"", false⟩, "mt"⟩ : Editor).scroll
        10 80).cy = 25) := by
  have h := scroll_spec
    ⟨List.replicate 30 ['x'], 0, 25, 5, 0, ⟨"", false⟩, "mt"⟩ 10 80
    (by decide) (by decide) (by decide)
  exact ⟨h.2.2.1.trans (by decide), h.1⟩

/-! ### Cursor well-formedness machinery (C2, C3) -/

/-- A successful two-pass search yields an in-bounds row and a column at
most the matched line's length. -/
lemma findPos_bounds (e : Editor) (q : List Char) (y x : Nat) (h : e.Wf)
    (hf : e.findPos q = some (y, x)) :
    y < e.lines.length ∧ x ≤ (e.lines.getD y []).length := by
  obtain ⟨hy, _⟩ := h
  obtain ⟨p, hp, hpe⟩ := List.exists_of_findSome?_eq_some hf
  cases hs : strFind (e.lines.getD p.1 []) q p.2 with
  | none => rw [hs] at hpe; simp at hpe
  | some i =>
    rw [hs] at hpe
    simp only [Option.map_some', Option.some.injEq, Prod.mk.injEq] at hpe
    obtain ⟨h1, h2⟩ := hpe
    have hxm : i ∈ colCandidates (e.lines.getD p.1 []) p.2 :=
      List.mem_of_find?_eq_some hs
    unfold colCandidates at hxm
    rw [List.mem_range'_1] at hxm
    have hxle : x ≤ (e.lines.getD y []).length := by
      rw [← h1, ← h2]; omega
    refine ⟨?_, hxle⟩
    unfold Editor.twoPassRows at hp
    rw [List.mem_append] at hp
    rcases hp with hp | hp <;> rw [List.mem_map] at hp <;>
      obtain ⟨a, ha, rfl⟩ := hp
    · rw [List.mem_range'_1] at ha
      simp only at h1
      omega
    · rw [List.mem_range] at ha
      simp only at h1
      omega

/-- Every run-loop operation preserves cursor well-formedness. -/
lemma apply_wf (e : Editor) (op : Op) (h : e.Wf) : (e.apply op).Wf := by
  obtain ⟨hy, hx⟩ := h
  have hlen : 0 < e.lines.length := Nat.lt_of_le_of_lt (Nat.zero_le _) hy
  cases op with
  | insert_char ch =>
    refine ⟨?_, ?_⟩
    · simpa [Editor.apply, Editor.insert_char] using hy
    · have hcur := getD_set_self e.lines e.cy
        (e.curLine.take e.cx ++ ch ++ e.curLine.drop e.cx) hy
      simp only [Editor.apply, Editor.insert_char, Editor.curLine] at *
      rw [hcur]
      simp only [List.length_append, List.length_take, List.length_drop]
      omega
  | insert_newline =>
    have hle : e.cy + 1 ≤ (e.lines.set e.cy (e.curLine.take e.cx)).length := by
      simp [List.length_set]; omega
    refine ⟨?_, Nat.zero_le _⟩
    simp only [Editor.apply, Editor.insert_newline,
      List.length_insertIdx _ _ hle, List.length_set]
    omega
  | backspace =>
    by_cases hcx : 0 < e.cx
    · refine ⟨?_, ?_⟩
      · simpa [Editor.apply, Editor.backspace, hcx] using hy
      · have hcur := getD_set_self e.lines e.cy
          (e.curLine.take (e.cx - 1) ++ e.curLine.drop e.cx) hy
        simp only [Editor.apply, Editor.backspace, hcx, if_true,
          Editor.curLine] at *
        rw [hcur]
        simp only [List.length_append, List.length_take, List.length_drop]
        omega
    · by_cases hcy : 0 < e.cy
      · have hy1 : e.cy - 1 < e.lines.length := by omega
        have hlt : e.cy - 1 < e.cy := by omega
        have hcur : ((e.lines.set (e.cy - 1)
              (e.lines.getD (e.cy - 1) [] ++ e.curLine)).eraseIdx e.cy).getD
              (e.cy - 1) [] = e.lines.getD (e.cy - 1) [] ++ e.curLine := by
          simp only [List.getD_eq_getElem?_getD, List.getElem?_eraseIdx,
            List.getElem?_set]
          simp [hlt, hy1]
        have he : e.apply Op.backspace = { e with
            lines := (e.lines.set (e.cy - 1)
                (e.lines.getD (e.cy - 1) [] ++ e.curLine)).eraseIdx e.cy,
            cx := (e.lines.getD (e.cy - 1) []).length,
            cy := e.cy - 1,
            status := { e.status with dirty := true } } := by
          simp only [Editor.apply, Editor.backspace]
          rw [if_neg hcx, if_pos hcy]
        rw [he]
        unfold Editor.Wf Editor.curLine
        dsimp only
        refine ⟨?_, ?_⟩
        · simp only [List.length_eraseIdx, List.length_set]
          rw [if_pos hy]
          omega
        · unfold Editor.curLine at hcur
          rw [hcur]
          simp
      · have he : e.apply Op.backspace = e := by
          simp [Editor.apply, Editor.backspace, hcx, hcy]
        rw [he]; exact ⟨hy, hx⟩
  | delete =>
    by_cases hcx : e.cx < e.curLine.length
    · have hcur := getD_set_self e.lines e.cy
        (e.curLine.take e.cx ++ e.curLine.drop (e.cx + 1)) hy
      have he : e.apply Op.delete = { e with
          lines := e.lines.set e.cy
              (e.curLine.take e.cx ++ e.curLine.drop (e.cx + 1)),
          status := { e.status with dirty := true } } := by
        simp only [Editor.apply, Editor.delete]
        rw [if_pos hcx]
      rw [he]
      unfold Editor.Wf Editor.curLine
      dsimp only
      refine ⟨by simpa using hy, ?_⟩
      unfold Editor.curLine at hcur hcx
      rw [hcur]
      simp only [List.length_append, List.length_take, List.length_drop]
      omega
    · by_cases hcy : e.cy < e.lines.length - 1
      · have hlt : e.cy < e.cy + 1 := by omega
        have hcur : ((e.lines.set e.cy
              (e.curLine ++ e.lines.getD (e.cy + 1) [])).eraseIdx
              (e.cy + 1)).getD e.cy []
              = e.curLine ++ e.lines.getD (e.cy + 1) [] := by
          simp only [List.getD_eq_getElem?_getD, List.getElem?_eraseIdx,
            List.getElem?_set]
          simp [hlt, hy]
        have he : e.apply Op.delete = { e with
            lines := (e.lines.set e.cy
                (e.curLine ++ e.lines.getD (e.cy + 1) [])).eraseIdx (e.cy + 1),
            status := { e.status with dirty := true } } := by
          simp only [Editor.apply, Editor.delete]
          rw [if_neg hcx, if_pos hcy]
        rw [he]
        unfold Editor.Wf Editor.curLine
        dsimp only
        refine ⟨?_, ?_⟩
        · simp only [List.length_eraseIdx, List.length_set]
          rw [if_pos (by omega)]
          omega
        · unfold Editor.curLine at hcur hx
          rw [hcur]
          simp only [List.length_append]
          omega
      · have he : e.apply Op.delete = e := by
          simp [Editor.apply, Editor.delete, hcx, hcy]
        rw [he]; exact ⟨hy, hx⟩
  | left =>
    by_cases hcx : 0 < e.cx
    · exact ⟨by simpa [Editor.apply, Editor.left, hcx] using hy,
        by simp only [Editor.apply, Editor.left, hcx, if_true,
             Editor.curLine] at hx ⊢; omega⟩
    · by_cases hcy : 0 < e.cy
      · refine ⟨?_, ?_⟩
        · simp only [Editor.apply, Editor.left, hcx, hcy, if_true, if_false]
          omega
        · simp [Editor.apply, Editor.left, hcx, hcy, Editor.curLine]
      · have he : e.apply Op.left = e := by
          simp [Editor.apply, Editor.left, hcx, hcy]
        rw [he]; exact ⟨hy, hx⟩
  | right =>
    by_cases hcx : e.cx < e.curLine.length
    · have he : e.apply Op.right = { e with cx := e.cx + 1 } := by
        simp only [Editor.apply, Editor.right]
        rw [if_pos hcx]
      rw [he]
      exact ⟨hy, by show e.cx + 1 ≤ e.curLine.length; omega⟩
    · by_cases hcy : e.cy < e.lines.length - 1
      · have he : e.apply Op.right = { e with cy := e.cy + 1, cx := 0 } := by
          simp only [Editor.apply, Editor.right]
          rw [if_neg hcx, if_pos hcy]
        rw [he]
        exact ⟨by show e.cy + 1 < e.lines.length; omega, Nat.zero_le _⟩
      · have he : e.apply Op.right = e := by
          simp [Editor.apply, Editor.right, hcx, hcy]
        rw [he]; exact ⟨hy, hx⟩
  | up =>
    by_cases hcy : 0 < e.cy
    · exact ⟨by simp only [Editor.apply, Editor.up, hcy, if_true]; omega,
        by simp [Editor.apply, Editor.up, hcy, Editor.curLine]⟩
    · have he : e.apply Op.up = e := by simp [Editor.apply, Editor.up, hcy]
      rw [he]; exact ⟨hy, hx⟩
  | down =>
    by_cases hcy : e.cy < e.lines.length - 1
    · exact ⟨by simp only [Editor.apply, Editor.down, hcy, if_true]; omega,
        by simp [Editor.apply, Editor.down, hcy, Editor.curLine]⟩
    · have he : e.apply Op.down = e := by
        simp [Editor.apply, Editor.down, hcy]
      rw [he]; exact ⟨hy, hx⟩
  | home => exact ⟨hy, Nat.zero_le _⟩
  | endKey => exact ⟨hy, Nat.le_refl _⟩
  | page_up n =>
    exact ⟨by simp only [Editor.apply, Editor.page_up]; omega,
      by simp [Editor.apply, Editor.page_up, Editor.curLine]⟩
  | page_down n =>
    exact ⟨by simp only [Editor.apply, Editor.page_down]; omega,
      by simp [Editor.apply, Editor.page_down, Editor.curLine]⟩
  | find q =>
    by_cases hq : q.isEmpty
    · have he : e.apply (Op.find q) = e := by
        simp [Editor.apply, Editor.find, hq]
      rw [he]; exact ⟨hy, hx⟩
    · cases hfp : e.findPos q with
      | none =>
        have he : (e.apply (Op.find q)).lines = e.lines ∧
            (e.apply (Op.find q)).cy = e.cy ∧ (e.apply (Op.find q)).cx = e.cx := by
          simp [Editor.apply, Editor.find, hq, hfp]
        exact ⟨by rw [he.1, he.2.1]; exact hy,
          by unfold Editor.curLine; rw [he.1, he.2.1, he.2.2]; exact hx⟩
      | some p =>
        obtain ⟨hb1, hb2⟩ := findPos_bounds e q p.1 p.2 ⟨hy, hx⟩ (by simpa using hfp)
        have he : (e.apply (Op.find q)).lines = e.lines ∧
            (e.apply (Op.find q)).cy = p.1 ∧ (e.apply (Op.find q)).cx = p.2 := by
          simp [Editor.apply, Editor.find, hq, hfp]
        exact ⟨by rw [he.1, he.2.1]; exact hb1,
          by unfold Editor.curLine; rw [he.1, he.2.1, he.2.2]; exact hb2⟩
  | goto_line s =>
    by_cases hs : s.isEmpty
    · have he : e.apply (Op.goto_line s) = e := by
        simp [Editor.apply, Editor.goto_line, hs]
      rw [he]; exact ⟨hy, hx⟩
    · cases hp : pyInt? s with
      | none =>
        have he : (e.apply (Op.goto_line s)).lines = e.lines ∧
            (e.apply (Op.goto_line s)).cy = e.cy ∧
            (e.apply (Op.goto_line s)).cx = e.cx := by
          simp [Editor.apply, Editor.goto_line, hs, hp]
        exact ⟨by rw [he.1, he.2.1]; exact hy,
          by unfold Editor.curLine; rw [he.1, he.2.1, he.2.2]; exact hx⟩
      | some v =>
        have he : e.apply (Op.goto_line s) = { e with
            cy := min (e.lines.length - 1) ((max 1 v).toNat - 1),
            cx := min e.cx (e.lines.getD
                (min (e.lines.length - 1) ((max 1 v).toNat - 1)) []).length,
            status := { e.status with
                msg := "Line " ++ toString (max 1 v).toNat } } := by
          simp only [Editor.apply, Editor.goto_line]
          rw [if_neg hs, hp]
        rw [he]
        unfold Editor.Wf Editor.curLine
        dsimp only
        exact ⟨by omega, Nat.min_le_right _ _⟩
  | save r =>
    cases r with
    | ok m => exact ⟨hy, hx⟩
    | error m => exact ⟨hy, hx⟩
  | scroll th w =>
    refine ⟨?_, ?_⟩
    · simp only [Editor.apply, Editor.scroll, Editor.clamp_cursor]
      omega
    · simp [Editor.apply, Editor.scroll, Editor.clamp_cursor, Editor.curLine]

/-- `_load` always produces a non-empty line list. -/
lemma load_lines_ne_nil (e : Editor) (r : LoadRes) : (e.load r).lines ≠ [] := by
  cases r with
  | ok content m =>
    show (if (splitlines content).isEmpty then [[]] else splitlines content) ≠ []
    split_ifs with hd
    · simp
    · simp_all [List.isEmpty_iff]
  | notFound => simp [Editor.load]
  | err m => simp [Editor.load]

/-- A freshly constructed editor (cursor (0,0), then `_load`) is
well-formed. -/
lemma init_wf (mt : String) (r : LoadRes) : (Editor.init mt r).Wf := by
  have h1 : (Editor.init mt r).lines ≠ [] := load_lines_ne_nil _ r
  have h2 : (Editor.init mt r).cy = 0 := by cases r <;> rfl
  have h3 : (Editor.init mt r).cx = 0 := by cases r <;> rfl
  refine ⟨?_, ?_⟩
  · rw [h2]; exact List.length_pos.mpr h1
  · rw [h3]; exact Nat.zero_le _

/-- Well-formedness is preserved by arbitrary operation sequences. -/
lemma applyAll_wf (e : Editor) (ops : List Op) (h : e.Wf) :
    (e.applyAll ops).Wf := by
  induction ops generalizing e with
  | nil => exact h
  | cons op t ih => exact ih _ (apply_wf e op h)

/-! ### C2: cursor bounds invariant -/

/-- C2: from any state with a valid cursor, every single run-loop operation
(insert_char, insert_newline, backspace, delete, left, right, up, down,
home, end, page_up, page_down, find, goto_line, save, scroll) again yields
`row < len(buffer)` and `column ≤ len(buffer[row])`; and the
initialization load — the only `_load` call the source performs, made with
the cursor at (0,0) — also establishes these bounds.  Rows and columns are
naturals here, so `0 ≤ row` and `0 ≤ column` hold by construction. -/
theorem cursor_bounds (e : Editor) (op : Op) (mt : String) (r : LoadRes)
    (h : e.cy < e.lines.length ∧ e.cx ≤ e.curLine.length) :
    ((e.apply op).cy < (e.apply op).lines.length ∧
      (e.apply op).cx ≤ (e.apply op).curLine.length) ∧
    ((Editor.init mt r).cy < (Editor.init mt r).lines.length ∧
      (Editor.init mt r).cx ≤ (Editor.init mt r).curLine.length) :=
  ⟨apply_wf e op h, init_wf mt r⟩

/-- Witness for `cursor_bounds`: backspace at (0,1) of buffer `["ab"]`. -/
theorem cursor_bounds_witness :
    (((⟨[['a', 'b']], 1, 0, 0, 0, ⟨"", false⟩, "m"⟩ : Editor).apply
          Op.backspace).cy <
        ((⟨[['a', 'b']], 1, 0, 0, 0, ⟨"", false⟩, "m"⟩ : Editor).apply
          Op.backspace).lines.length ∧
      ((⟨[['a', 'b']], 1, 0, 0, 0, ⟨"", false⟩, "m"⟩ : Editor).apply
          Op.backspace).cx ≤
        ((⟨[['a', 'b']], 1, 0, 0, 0, ⟨"", false⟩, "m"⟩ : Editor).apply
          Op.backspace).curLine.length) ∧
    ((Editor.init "mt" LoadRes.notFound).cy <
        (Editor.init "mt" LoadRes.notFound).lines.length ∧
      (Editor.init "mt" LoadRes.notFound).cx ≤
        (Editor.init "mt" LoadRes.notFound).curLine.length) :=
  cursor_bounds ⟨[['a', 'b']], 1, 0, 0, 0, ⟨"", false⟩, "m"⟩ Op.backspace
    "mt" LoadRes.notFound (by decide)

/-! ### C3: the buffer is never empty -/

/-- C3: every session — the initialization load followed by any sequence of
run-loop operations (mutation, navigation, search, goto-line, save,
scroll) — keeps at least one (possibly empty) line in the buffer.  The
source calls `_load` only from `__init__`, so sequences start at
`Editor.init`. -/
theorem buffer_nonempty (mt : String) (r : LoadRes) (ops : List Op) :
    (Editor.applyAll (Editor.init mt r) ops).lines ≠ [] := by
  obtain ⟨h1, _⟩ := applyAll_wf (Editor.init mt r) ops (init_wf mt r)
  intro hnil
  rw [hnil] at h1
  simp at h1

/-! ### C9: navigation, failed search and goto-line frame conditions -/

/-- All fields except the cursor agree. -/
def OnlyCursorChanged (a b : Editor) : Prop :=
  a.lines = b.lines ∧ a.status = b.status ∧ a.rowoff = b.rowoff ∧
  a.coloff = b.coloff ∧ a.loadedMtime = b.loadedMtime

/-- The empty query matches immediately, so a two-pass search that found
nothing had a non-empty query. -/
lemma findPos_nil_ne_none (e : Editor) : e.findPos [] ≠ none := by
  intro h
  rw [Editor.findPos, List.findSome?_eq_none_iff] at h
  have hmem : ((0 : Nat), (0 : Nat)) ∈ e.twoPassRows := by
    unfold Editor.twoPassRows
    rw [List.mem_append]
    right
    rw [List.mem_map]
    exact ⟨0, by rw [List.mem_range]; omega, rfl⟩
  have h0 := h _ hmem
  unfold strFind colCandidates at h0
  rw [Nat.sub_zero, List.range'_succ, List.find?_cons] at h0
  simp [occursAt] at h0

/-- C9: the pure navigation operations change at most the cursor; a search
whose two-pass scan finds nothing changes only the status message (and
leaves the cursor, buffer and dirty flag alone); and any goto-line call
leaves the buffer lines, the dirty flag, the viewport offsets and the
mtime unchanged. -/
theorem nav_search_goto_frame (e : Editor) (n m : Nat) (q s : List Char)
    (hq : e.findPos q = none) :
    OnlyCursorChanged e.left e ∧ OnlyCursorChanged e.right e ∧
    OnlyCursorChanged e.up e ∧ OnlyCursorChanged e.down e ∧
    OnlyCursorChanged e.home e ∧ OnlyCursorChanged e.endKey e ∧
    OnlyCursorChanged (e.page_up n) e ∧ OnlyCursorChanged (e.page_down m) e ∧
    (e.find q = { e with status := { e.status with msg := "Not found" } }) ∧
    ((e.goto_line s).lines = e.lines ∧
      (e.goto_line s).status.dirty = e.status.dirty ∧
      (e.goto_line s).rowoff = e.rowoff ∧
      (e.goto_line s).coloff = e.coloff ∧
      (e.goto_line s).loadedMtime = e.loadedMtime) := by
  have hqe : q.isEmpty = false := by
    cases q with
    | nil => exact absurd hq (findPos_nil_ne_none e)
    | cons a t => rfl
  refine ⟨?_, ?_, ?_, ?_, ?_, ?_, ?_, ?_, ?_, ?_⟩
  · unfold Editor.left; split_ifs <;> exact ⟨rfl, rfl, rfl, rfl, rfl⟩
  · unfold Editor.right; split_ifs <;> exact ⟨rfl, rfl, rfl, rfl, rfl⟩
  · unfold Editor.up; split_ifs <;> exact ⟨rfl, rfl, rfl, rfl, rfl⟩
  · unfold Editor.down; split_ifs <;> exact ⟨rfl, rfl, rfl, rfl, rfl⟩
  · exact ⟨rfl, rfl, rfl, rfl, rfl⟩
  · exact ⟨rfl, rfl, rfl, rfl, rfl⟩
  · exact ⟨rfl, rfl, rfl, rfl, rfl⟩
  · exact ⟨rfl, rfl, rfl, rfl, rfl⟩
  · simp [Editor.find, hqe, hq]
  · unfold Editor.goto_line
    split_ifs with hs
    · exact ⟨rfl, rfl, rfl, rfl, rfl⟩
    · cases hp : pyInt? s <;> simp [hp] <;> exact ⟨rfl, rfl, rfl, rfl, rfl⟩

/-- Witness for `nav_search_goto_frame`: buffer `["ab"]`, query "z" (not
present), goto input "7". -/
theorem nav_search_goto_frame_witness :
    OnlyCursorChanged
        (⟨[['a', 'b']], 1, 0, 0, 0, ⟨"", false⟩, "m"⟩ : Editor).left
        ⟨[['a', 'b']], 1, 0, 0, 0, ⟨"", false⟩, "m"⟩ ∧
    ((⟨[['a', 'b']], 1, 0, 0, 0, ⟨"", false⟩, "m"⟩ : Editor).find ['z'] =
      { (⟨[['a', 'b']], 1, 0, 0, 0, ⟨"", false⟩, "m"⟩ : Editor) with
        status := ⟨"Not found", false⟩ }) ∧
    ((⟨[['a', 'b']], 1, 0, 0, 0, ⟨"", false⟩, "m"⟩ : Editor).goto_line
        ['7']).lines = [['a', 'b']] :=
  by
  have h := nav_search_goto_frame
    ⟨[['a', 'b']], 1, 0, 0, 0, ⟨"", false⟩, "m"⟩ 1 2 ['z'] ['7'] (by decide)
  exact ⟨h.1, h.2.2.2.2.2.2.2.2.1, (h.2.2.2.2.2.2.2.2.2.1).trans (by decide)⟩

/-! ### C4: goto-line -/

/-- C4 (amended): empty (or cancelled) input is a silent no-op; non-empty
input that does not parse as an integer reports "Invalid number" and leaves
the cursor unchanged; input parsing to `v` moves the row to
`max 1 v − 1` clamped to `[0, lastRow]`, clamps the column to the resulting
line's length, and reports `max 1 v` — the value clamped below to 1 but
*not* clamped to the buffer's last line. -/
theorem goto_line_cases (e : Editor) (s : List Char) :
    (s = [] → e.goto_line s = e) ∧
    (s ≠ [] → pyInt? s = none →
      e.goto_line s = { e with status := { e.status with
          msg := "Invalid number" } }) ∧
    (∀ v : Int, s ≠ [] → pyInt? s = some v →
      e.goto_line s = { e with
        cy := min (e.lines.length - 1) ((max 1 v).toNat - 1),
        cx := min e.cx (e.lines.getD
            (min (e.lines.length - 1) ((max 1 v).toNat - 1)) []).length,
        status := { e.status with
            msg := "Line " ++ toString (max 1 v).toNat } }) := by
  refine ⟨?_, ?_, ?_⟩
  · intro hs
    subst hs
    rfl
  · intro hs hp
    have hse : s.isEmpty = false := by cases s <;> simp_all
    simp [Editor.goto_line, hse, hp]
  · intro v hs hp
    have hse : ¬(s.isEmpty = true) := by cases s <;> simp_all
    simp only [Editor.goto_line]
    rw [if_neg hse, hp]

/-- Counterexample to C4 as stated: on the one-line buffer `["a"]`, the
empty input "" does not parse as an integer yet the status is left at
"Opened" rather than set to "Invalid number"; and the input "5" resolves
(after clamping) to row 0, i.e. 1-based line 1, yet the status reports
"Line 5". -/
theorem goto_line_claim_counterexample :
    ((Editor.init "mt" (LoadRes.ok ['a'] "m")).goto_line []).status.msg ≠
        "Invalid number" ∧
    ((Editor.init "mt" (LoadRes.ok ['a'] "m")).goto_line ['5']).cy = 0 ∧
    ((Editor.init "mt" (LoadRes.ok ['a'] "m")).goto_line ['5']).status.msg ≠
        "Line 1" := by
  refine ⟨?_, ?_, ?_⟩ <;> decide

/-- Witness for `goto_line_cases`: buffer `["a","b"]`, input "5" parses to
5, row clamps to 1, status reports "Line 5". -/
theorem goto_line_cases_witness :
    (⟨[['a'], ['b']], 0, 0, 0, 0, ⟨"", false⟩, "m"⟩ : Editor).goto_line
        ['5'] =
      { (⟨[['a'], ['b']], 0, 0, 0, 0, ⟨"", false⟩, "m"⟩ : Editor) with
        cy := 1, cx := 0, status := ⟨"Line 5", false⟩ } :=
  (((goto_line_cases ⟨[['a'], ['b']], 0, 0, 0, 0, ⟨"", false⟩, "m"⟩
      ['5']).2.2) 5 (by decide) (by decide)).trans (by decide)

/-! ### C1: two-pass search -/

/-- Scanning rows one at a time and taking each row's first hit is the same
as one scan over the flattened candidate list. -/
lemma findSome?_map_find? {α β : Type} (l : List α) (f : α → List β)
    (p : β → Bool) :
    l.findSome? (fun a => (f a).find? p) = (l.flatMap f).find? p := by
  induction l with
  | nil => rfl
  | cons a t ih =>
    rw [List.flatMap_cons, List.find?_append, List.findSome?_cons]
    cases h : (f a).find? p with
    | none => simpa using ih
    | some b => rfl

/-- The complete ordered list of (row, column) start positions the two-pass
scan examines: first rows `cy … last` (on the cursor row starting at the
cursor column, on later rows at column 0), then rows `0 … cy` from column
0; within a row, columns in increasing order to the end of the line. -/
def Editor.passPositions (e : Editor) : List (Nat × Nat) :=
  e.twoPassRows.flatMap
    (fun p => (colCandidates (e.lines.getD p.1 []) p.2).map (fun i => (p.1, i)))

/-- The row-by-row search of `Editor.find` returns exactly the first
occurrence position in the flattened two-pass scan order. -/
lemma findPos_eq_find?_passPositions (e : Editor) (q : List Char) :
    e.findPos q = (e.passPositions).find?
      (fun r => occursAt (e.lines.getD r.1 []) q r.2) := by
  have hfun : ∀ p : Nat × Nat,
      (strFind (e.lines.getD p.1 []) q p.2).map (fun i => (p.1, i)) =
      ((colCandidates (e.lines.getD p.1 []) p.2).map
        (fun i => (p.1, i))).find?
          (fun r => occursAt (e.lines.getD r.1 []) q r.2) := by
    intro p
    rw [List.find?_map]
    rfl
  unfold Editor.findPos Editor.passPositions
  simp only [hfun]
  exact findSome?_map_find? _ _ _

/-- C1: for every buffer, cursor and non-empty query, `find` is the
two-pass scan: pass 1 walks rows from the cursor row to the last (starting
at the cursor column on the cursor row, column 0 afterwards), pass 2 walks
rows 0 through the starting row from column 0; the first position holding
`q` as a substring (in that scan order) becomes the cursor with status
"Found", and if no position does, the status becomes "Not found" with the
cursor unchanged. -/
theorem find_two_pass_scan (e : Editor) (q : List Char) (hq : q ≠ []) :
    e.find q =
      match (e.passPositions).find?
          (fun r => occursAt (e.lines.getD r.1 []) q r.2) with
      | some r => { e with cy := r.1, cx := r.2,
                           status := { e.status with msg := "Found" } }
      | none => { e with status := { e.status with msg := "Not found" } } := by
  have hqe : q.isEmpty = false := by cases q <;> simp_all
  rw [← findPos_eq_find?_passPositions]
  unfold Editor.find
  simp only [hqe, Bool.false_eq_true, if_false]

/-- Witness for `find_two_pass_scan`: buffer `["foo", "bar"]`, cursor
(0,0), query "bar" — first scan hit is (1,0). -/
theorem find_two_pass_scan_witness :
    (⟨[['f', 'o', 'o'], ['b', 'a', 'r']], 0, 0, 0, 0, ⟨"", false⟩,
        "m"⟩ : Editor).find ['b', 'a', 'r'] =
      match ((⟨[['f', 'o', 'o'], ['b', 'a', 'r']], 0, 0, 0, 0, ⟨"", false⟩,
          "m"⟩ : Editor).passPositions).find?
          (fun r => occursAt
            ((⟨[['f', 'o', 'o'], ['b', 'a', 'r']], 0, 0, 0, 0, ⟨"", false⟩,
              "m"⟩ : Editor).lines.getD r.1 []) ['b', 'a', 'r'] r.2) with
      | some r =>
          { (⟨[['f', 'o', 'o'], ['b', 'a', 'r']], 0, 0, 0, 0, ⟨"", false⟩,
              "m"⟩ : Editor) with
            cy := r.1, cx := r.2, status := ⟨"Found", false⟩ }
      | none =>
          { (⟨[['f', 'o', 'o'], ['b', 'a', 'r']], 0, 0, 0, 0, ⟨"", false⟩,
              "m"⟩ : Editor) with
            status := ⟨"Not found", false⟩ } :=
  find_two_pass_scan
    ⟨[['f', 'o', 'o'], ['b', 'a', 'r']], 0, 0, 0, 0, ⟨"", false⟩, "m"⟩
    ['b', 'a', 'r'] (by decide)

/-! ### C5: load/save round trip -/

/-- The content ends with a newline character. -/
def endsNl : List Char → Bool
  | [] => false
  | [c] => c == '\n'
  | _ :: c2 :: rest => endsNl (c2 :: rest)

/-- Splitting after a leading newline. -/
lemma splitlines_nl (rest : List Char) :
    splitlines ('\n' :: rest) = [] :: splitlines rest := by
  cases rest <;> rfl

/-- Splitting after a leading non-break character. -/
lemma splitlines_other (c : Char) (rest : List Char)
    (h : isLineBreak c = false) :
    splitlines (c :: rest) = consHead c (splitlines rest) := by
  have hc : ¬(c = '\r') := by
    intro hh
    subst hh
    simp [isLineBreak] at h
  cases rest with
  | nil => simp [splitlines, h, consHead]
  | cons c2 r2 => simp [splitlines, hc, h]

/-- A non-empty content splits into at least one line. -/
lemma splitlines_ne_nil (c : Char) (rest : List Char) :
    splitlines (c :: rest) ≠ [] := by
  have hch : ∀ l, consHead c l ≠ [] := by
    intro l; cases l <;> simp [consHead]
  cases rest with
  | nil => simp only [splitlines]; split_ifs <;> simp
  | cons c2 r2 => simp only [splitlines]; split_ifs <;> simp [hch]

/-- Prepending a character to the first split line prepends it to the
joined text. -/
lemma joinNL_consHead (c : Char) (ls : List (List Char)) :
    joinNL (consHead c ls) = c :: joinNL ls := by
  cases ls with
  | nil => rfl
  | cons l t => cases t <;> rfl

/-- Joining the split of a content whose only break character is `'\n'`
and appending one newline restores the content, adding a trailing newline
exactly when the content lacked one. -/
lemma joinNL_splitlines_of_nl_only (content : List Char)
    (h : ∀ c ∈ content, isLineBreak c = true → c = '\n') :
    joinNL (splitlines content) ++ ['\n'] =
      if endsNl content then content else content ++ ['\n'] := by
  induction content with
  | nil => rfl
  | cons c rest ih =>
    have hrest : ∀ x ∈ rest, isLineBreak x = true → x = '\n' :=
      fun x hx => h x (List.mem_cons_of_mem _ hx)
    by_cases hc : c = '\n'
    · subst hc
      rw [splitlines_nl]
      cases rest with
      | nil => rfl
      | cons c2 r2 =>
        obtain ⟨l0, ls0, hsp⟩ :
            ∃ l0 ls0, splitlines (c2 :: r2) = l0 :: ls0 := by
          cases hs : splitlines (c2 :: r2) with
          | nil => exact absurd hs (splitlines_ne_nil c2 r2)
          | cons a b => exact ⟨a, b, rfl⟩
        rw [hsp]
        have hj : joinNL ([] :: l0 :: ls0) = '\n' :: joinNL (l0 :: ls0) := rfl
        rw [hj]
        have ih2 := ih hrest
        rw [hsp] at ih2
        rw [List.cons_append, ih2]
        have hend : endsNl ('\n' :: c2 :: r2) = endsNl (c2 :: r2) := rfl
        rw [hend]
        by_cases he : endsNl (c2 :: r2) = true
        · simp [he]
        · simp [he]
    · have hcb : isLineBreak c = false := by
        cases hb : isLineBreak c
        · rfl
        · exact absurd (h c (List.mem_cons_self c rest) hb) hc
      rw [splitlines_other c rest hcb, joinNL_consHead, List.cons_append,
        ih hrest]
      cases rest with
      | nil =>
        have hb : (c == '\n') = false := by simp [hc]
        simp [endsNl, hb]
      | cons c2 r2 =>
        have hend : endsNl (c :: c2 :: r2) = endsNl (c2 :: r2) := rfl
        rw [hend]
        by_cases he : endsNl (c2 :: r2) = true
        · simp [he]
        · simp [he]

/-- C5 (amended): for content whose only line-break characters are `'\n'`
(no CR, form feed, etc.), loading then immediately saving reproduces the
content exactly when it already ends with a newline, and otherwise appends
exactly one trailing newline. -/
theorem load_save_round_trip (content : List Char)
    (h : ∀ c ∈ content, isLineBreak c = true → c = '\n') :
    savedText (Editor.init "mt" (LoadRes.ok content "m")).lines =
      (if endsNl content then content else content ++ ['\n']) := by
  have hjoin : joinNL (Editor.init "mt" (LoadRes.ok content "m")).lines =
      joinNL (splitlines content) := by
    show joinNL (if (splitlines content).isEmpty then [[]]
        else splitlines content) = joinNL (splitlines content)
    split_ifs with hd
    · rw [List.isEmpty_iff] at hd
      rw [hd]
      rfl
    · rfl
  unfold savedText
  rw [hjoin, joinNL_splitlines_of_nl_only content h]

/-- Counterexample to C5 as stated: content "a\r\nb" (a CRLF line break)
loads-then-saves to "a\nb\n" — the CR byte is rewritten, a change beyond
normalizing the trailing newline; and content "a\n\n" saves to "a\n\n",
which does not end in exactly one trailing newline. -/
theorem round_trip_counterexample :
    savedText
        (Editor.init "mt" (LoadRes.ok ['a', '\r', '\n', 'b'] "m")).lines ≠
      ['a', '\r', '\n', 'b', '\n'] ∧
    savedText (Editor.init "mt" (LoadRes.ok ['a', '\n', '\n'] "m")).lines ≠
      ['a', '\n'] := by
  refine ⟨?_, ?_⟩ <;> decide

/-- Witness for `load_save_round_trip` at content "a\nb". -/
theorem load_save_round_trip_witness :
    savedText (Editor.init "mt" (LoadRes.ok ['a', '\n', 'b'] "m")).lines =
      ['a', '\n', 'b', '\n'] :=
  (load_save_round_trip ['a', '\n', 'b'] (by decide)).trans (by decide)
